import Mathlib

/-!
Shallow embedding of the ParticleIO example of the HomeSpan repository
(`src/examples/Other Examples/ParticleIO/Particle.h` and `Particle.cpp`).

C strings are modelled as `List Char`, one `Char` per byte (the source only
manipulates ASCII data).  The Arduino `String` scanning primitives used by the
source (`indexOf`, `charAt`, `substring`, `trim`, `toInt`) are embedded as
fuel-based structurally recursive functions so that every definition is
kernel-computable.  Stateful code (the throttle cache, the async front ends and
their background tasks) is embedded as explicit state passing; the network and
FreeRTOS environment (HTTP responses, task-spawn success, `millis()`) is
passed in as explicit data.
-/

namespace Particle

/-- C strings: one `Char` per byte. -/
abbrev CStr := List Char

/-! ## Constants from Particle.h -/

def MAX_API_KEY : Nat := 40

def MAX_DEVICE_ID : Nat := 24

def PARTICLE_FUNCTION_RETRY_COUNT : Nat := 1

def PARTICLE_THROTTLE_SECONDS : Nat := 10

def PARTICLE_THROTTLE_ENABLED : Bool := true

def PARTICLE_THROTTLE_CACHE_SIZE : Nat := 10

/-- `HTTPC_ERROR_READ_TIMEOUT` from the ESP32 HTTPClient library: the status
value `http.POST` returns when the response read times out. -/
def HTTPC_ERROR_READ_TIMEOUT : Int := -11

/-! ## Arduino String primitives -/

/-- `String::charAt`: out-of-range access yields the NUL character. -/
def charAt (s : CStr) (i : Nat) : Char := s.getD i (Char.ofNat 0)

/-- One generic scanning loop
`while (i < s.length() && p(s.charAt(i))) i++;` with explicit fuel
(the fuel only bounds the iteration count; the loop condition is the test). -/
def scanWhileGo (p : Char → Bool) (s : CStr) : Nat → Nat → Nat
  | 0, i => i
  | fuel + 1, i =>
    if i < s.length ∧ p (charAt s i) = true then scanWhileGo p s fuel (i + 1) else i

/-- `scanWhile p s i`: the index at which the scanning loop starting at `i`
stops. -/
def scanWhile (p : Char → Bool) (s : CStr) (i : Nat) : Nat :=
  scanWhileGo p s (s.length - i) i

/-- The whitespace-skipping condition of the source's parse loops:
`response.charAt(p) == ' ' || response.charAt(p) == '\t'`. -/
def isSpaceOrTab (c : Char) : Bool := c == ' ' || c == '\t'

/-- The number-scanning condition of `callFunctionTaskImpl`:
`isdigit(response.charAt(p)) || response.charAt(p) == '-'`. -/
def isNumChar (c : Char) : Bool := c.isDigit || c == '-'

/-- The bare-token condition of `getVariableTaskImpl`:
`response.charAt(p) != ',' && response.charAt(p) != '\x7d'`. -/
def isNotDelim (c : Char) : Bool := !(c == ',' || c == '\x7d')

/-- Search loop of `String::indexOf(pat, from)`: first index `≥ i` at which
`pat` occurs in `s`, as an `Int`, `-1` when there is none. -/
def indexOfStrGo (s pat : CStr) : Nat → Nat → Int
  | 0, _ => -1
  | fuel + 1, i =>
    if List.isPrefixOf pat (s.drop i) then (i : Int) else indexOfStrGo s pat fuel (i + 1)

/-- `String::indexOf(pat, start)`. -/
def indexOfStr (s pat : CStr) (start : Nat) : Int :=
  indexOfStrGo s pat (s.length + 1 - start) start

/-- `String::indexOf(c, start)` (a one-character occurrence search). -/
def indexOfChar (s : CStr) (c : Char) (start : Nat) : Int :=
  indexOfStr s [c] start

/-- `String::substring(a, b)`: the characters at indices `[a, b)`. -/
def substring (s : CStr) (a b : Nat) : CStr := (s.take b).drop a

/-- C `isspace` characters (space, tab, newline, carriage return, vertical
tab, form feed), used by `String::trim` and `atol`. -/
def isCSpace (c : Char) : Bool :=
  c == ' ' || c == '\t' || c == '\n' || c == '\r' || c == Char.ofNat 11 || c == Char.ofNat 12

/-- `String::trim`: remove leading and trailing whitespace. -/
def trim (s : CStr) : CStr :=
  ((s.dropWhile isCSpace).reverse.dropWhile isCSpace).reverse

/-- Leading-digit accumulator of `atol`. -/
def digitsVal : CStr → Nat → Nat
  | [], acc => acc
  | c :: rest, acc =>
    if c.isDigit then digitsVal rest (acc * 10 + (c.toNat - 48)) else acc

/-- `String::toInt` (C `atol`): skip whitespace, optional sign, leading
digits; an empty or non-numeric string yields 0. -/
def atol (s : CStr) : Int :=
  match s.dropWhile isCSpace with
  | '-' :: rest => -(digitsVal rest 0 : Int)
  | '+' :: rest => (digitsVal rest 0 : Int)
  | t => (digitsVal t 0 : Int)

/-! ## Response-field extraction (Particle.cpp lines 420-442 and 507-547) -/

/-- The literal scanned for by `callFunctionTaskImpl` (15 characters). -/
def RETURN_VALUE_KEY : CStr := ("\"return_value\":").toList

/-- The literal scanned for by `getVariableTaskImpl` (9 characters). -/
def RESULT_KEY : CStr := ("\"result\":").toList

/-- The number of leading characters of `s` satisfying `p` (the distance a
scanning loop travels). -/
def countLeading (p : Char → Bool) : CStr → Nat
  | [] => 0
  | c :: rest => if p c then countLeading p rest + 1 else 0

/-- Extraction of the `return_value` field from an HTTP 200 body, mirroring
Particle.cpp lines 424-441: `none` when `indexOf` does not report the key at a
positive index (the source tests `returnPos > 0`); otherwise skip spaces/tabs,
scan a token of digits and `-`, and convert it with `toInt`. -/
def extractReturnValue (body : CStr) : Option Int :=
  let returnPos := indexOfStr body RETURN_VALUE_KEY 0
  if returnPos > 0 then
    let startPos := scanWhile isSpaceOrTab body (returnPos.toNat + 15)
    let endPos := scanWhile isNumChar body startPos
    some (atol (substring body startPos endPos))
  else none

/-- Truncation applied by `getVariableTaskImpl` before copying into its
1025-byte buffer: `if (result.length() >= 1024) result = result.substring(0, 1024)`. -/
def limit1024 (s : CStr) : CStr := if s.length ≥ 1024 then s.take 1024 else s

/-- Extraction of the `result` field from an HTTP 200 body, mirroring
Particle.cpp lines 511-547.  String values require the closing quote strictly
after the opening quote's successor (`endPos > startPos`); bare tokens run to
the first `,` or closing brace and are trimmed.  The result is the text and
the `success` flag. -/
def extractVariableResult (body : CStr) : CStr × Bool :=
  let resultPos := indexOfStr body RESULT_KEY 0
  if resultPos > 0 then
    let startPos := scanWhile isSpaceOrTab body (resultPos.toNat + 9)
    if charAt body startPos = '"' then
      let s1 := startPos + 1
      let endPos := indexOfChar body '"' s1
      if endPos > (s1 : Int) then (limit1024 (substring body s1 endPos.toNat), true)
      else ([], false)
    else
      let endPos := scanWhile isNotDelim body startPos
      (limit1024 (trim (substring body startPos endPos)), true)
  else ([], false)

/-! ## Background tasks (Particle.cpp lines 387-475 and 481-573) -/

/-- Observable events of an async request: an HTTP round trip, the
function-call continuation, or the variable-read continuation. -/
inductive TaskEvent where
  | net : TaskEvent
  | cbF : Int → Bool → TaskEvent
  | cbV : CStr → Bool → TaskEvent
  deriving DecidableEq

/-- The environment's answer to one transport attempt: either
`new WiFiClientSecure` returned null, or the HTTP call completed with a status
code and (when the status is 200) a response body. -/
inductive HttpOutcome where
  | allocFail : HttpOutcome
  | resp : Int → CStr → HttpOutcome

/-- The retry loop of `callFunctionTaskImpl` (lines 397-457):
`for(attempt = 0; attempt <= PARTICLE_FUNCTION_RETRY_COUNT && !success; attempt++)`.
`fuel` is the number of loop iterations still permitted by the loop bound
(`PARTICLE_FUNCTION_RETRY_COUNT + 1 - attempt`); `attempt` indexes into the
environment's outcome sequence; the `Int` argument is the current
`returnValue`.  A null transport allocation breaks out of the loop.  Inside an
iteration, a 200 status with the `return_value` key found sets
`returnValue`/`success`; every other outcome leaves `success` false, and the
loop condition (not the read-timeout test at line 453, which only gates the
inter-attempt delay) decides whether another attempt runs.  Returns the final
`(returnValue, success, events)`, one `TaskEvent.net` per HTTP round trip. -/
def callFunctionLoop (outcomes : Nat → HttpOutcome) :
    Nat → Nat → Int → Int × Bool × List TaskEvent
  | 0, _, rv => (rv, false, [])
  | fuel + 1, attempt, rv =>
    match outcomes attempt with
    | HttpOutcome.allocFail => (rv, false, [])
    | HttpOutcome.resp httpCode body =>
      if httpCode = 200 then
        match extractReturnValue body with
        | some v => (v, true, [TaskEvent.net])
        | none =>
          let r := callFunctionLoop outcomes fuel (attempt + 1) rv
          (r.1, r.2.1, TaskEvent.net :: r.2.2)
      else
        let r := callFunctionLoop outcomes fuel (attempt + 1) rv
        (r.1, r.2.1, TaskEvent.net :: r.2.2)

/-- `callFunctionTaskImpl` (lines 387-475): run the retry loop starting from
`returnValue = -1`, `success = false`, then invoke the saved callback (when
non-null) exactly once with the final outcome. -/
def callFunctionTaskRun (outcomes : Nat → HttpOutcome) (hasCallback : Bool) :
    Int × Bool × List TaskEvent :=
  let r := callFunctionLoop outcomes (PARTICLE_FUNCTION_RETRY_COUNT + 1) 0 (-1)
  (r.1, r.2.1, r.2.2 ++ (if hasCallback then [TaskEvent.cbF r.1 r.2.1] else []))

/-- `getVariableTaskImpl` (lines 481-573): a single HTTP GET (no retry loop);
a 200 status runs the `result` extraction, anything else leaves the buffer
empty with `success = false`; then the saved callback (when non-null) is
invoked exactly once. -/
def getVariableTaskRun (outcome : HttpOutcome) (hasCallback : Bool) :
    CStr × Bool × List TaskEvent :=
  let r : CStr × Bool × List TaskEvent :=
    match outcome with
    | HttpOutcome.allocFail => ([], false, [])
    | HttpOutcome.resp httpCode body =>
      if httpCode = 200 then
        let e := extractVariableResult body
        (e.1, e.2, [TaskEvent.net])
      else ([], false, [TaskEvent.net])
  (r.1, r.2.1, r.2.2 ++ (if hasCallback then [TaskEvent.cbV r.1 r.2.1] else []))

/-! ## Throttle cache (Particle.h lines 137-143, Particle.cpp lines 324-362) -/

/-- `ThrottleEntry` from Particle.h: an endpoint key and the `millis()`
timestamp of its last permitted call. -/
structure ThrottleEntry where
  endpoint : CStr
  lastCall : Nat
  deriving DecidableEq

/-- The throttle cache: `throttleCache[0..throttleCacheSize)`, in insertion
order. -/
structure ThrottleState where
  cache : List ThrottleEntry
  deriving DecidableEq

/-- `unsigned long elapsed = now - lastCall`: 32-bit unsigned wraparound
subtraction of `millis()` values. -/
def elapsedMs (now lastCall : Nat) : Nat :=
  ((((now : Int) - (lastCall : Int)) % (2 ^ 32)).toNat)

/-- `snprintf(endpoint, 80, "%s:%s", endpointType, endpointName)`: the derived
endpoint key, truncated to 79 bytes. -/
def throttleKey (endpointType endpointName : CStr) : CStr :=
  (endpointType ++ ':' :: endpointName).take 79

/-- The linear search of `checkThrottle` (lines 334-346): `none` when no entry
matches the key; otherwise the admit/deny decision at the first matching entry
and the updated cache (denial leaves the cache untouched; admission sets the
entry's `lastCall` to `now`). -/
def throttleScan (now : Nat) (key : CStr) : List ThrottleEntry → Option (Bool × List ThrottleEntry)
  | [] => none
  | e :: rest =>
    if e.endpoint = key then
      if elapsedMs now e.lastCall < PARTICLE_THROTTLE_SECONDS * 1000 then
        some (false, e :: rest)
      else
        some (true, ⟨e.endpoint, now⟩ :: rest)
    else
      match throttleScan now key rest with
      | some (b, rest') => some (b, e :: rest')
      | none => none

/-- `checkThrottle` (lines 324-362): disabled throttling admits without
touching the cache; otherwise scan for the key; on a miss, append a new entry
when space remains, or admit fail-open (no insertion, no eviction) when the
cache is full. -/
def checkThrottle (st : ThrottleState) (endpointType endpointName : CStr) (now : Nat) :
    Bool × ThrottleState :=
  if !PARTICLE_THROTTLE_ENABLED then (true, st)
  else
    let key := throttleKey endpointType endpointName
    match throttleScan now key st.cache with
    | some (allowed, cache') => (allowed, ⟨cache'⟩)
    | none =>
      if st.cache.length < PARTICLE_THROTTLE_CACHE_SIZE then
        (true, ⟨st.cache ++ [⟨key, now⟩]⟩)
      else
        (true, st)

/-- States of the throttle cache reachable from the initial (empty) cache
through `checkThrottle` calls. -/
inductive ReachableThrottle : ThrottleState → Prop where
  | init : ReachableThrottle ⟨[]⟩
  | step (st : ThrottleState) (t n : CStr) (now : Nat) :
      ReachableThrottle st → ReachableThrottle (checkThrottle st t n now).2

/-! ## Credential validation and interactive configuration
(Particle.cpp lines 198-259 and 263-314) -/

/-- The informational online/offline classification `validateCredentials`
derives from a 200 response body (lines 228-242); it only selects a log
message. -/
inductive OnlineStatus where
  | online : OnlineStatus
  | offline : OnlineStatus
  | unknown : OnlineStatus
  deriving DecidableEq

/-- The `"online"` parse of `validateCredentials` (lines 228-242). -/
def parseOnlineStatus (response : CStr) : OnlineStatus :=
  let onlinePos := indexOfStr response (("\"online\":").toList) 0
  if onlinePos > 0 then
    let truePos := indexOfStr response (("true").toList) onlinePos.toNat
    let falsePos := indexOfStr response (("false").toList) onlinePos.toNat
    if truePos > onlinePos ∧ (falsePos < 0 ∨ truePos < falsePos) then OnlineStatus.online
    else if falsePos > onlinePos ∧ (truePos < 0 ∨ falsePos < truePos) then OnlineStatus.offline
    else OnlineStatus.unknown
  else OnlineStatus.unknown

/-- `validateCredentials` (lines 198-259), over its environment: WiFi
connectivity, whether `new WiFiClientSecure` succeeded, and the HTTP status
and body of the ping round trip.  A 200 status is accepted regardless of the
parsed online status (which is logged only); every other status, a transport
failure (negative status), a missing connection or a failed allocation yields
`false`. -/
def validateCredentials (wifiConnected : Bool) (allocOk : Bool) (httpCode : Int)
    (body : CStr) : Bool :=
  if !wifiConnected then false
  else if !allocOk then false
  else if httpCode = 200 then
    let _status := parseOnlineStatus body
    true
  else false

/-- A candidate credential pair entered at the prompts. -/
structure Credential where
  apiKey : CStr
  deviceId : CStr
  deriving DecidableEq

/-- The environment of one validation round trip. -/
structure PingEnv where
  wifiConnected : Bool
  allocOk : Bool
  httpCode : Int
  body : CStr

/-- The `while(!validated)` loop of `serialConfigure` (lines 271-303) over the
sequence of candidate credential pairs the operator enters, each with the
environment of its validation round trip: the first candidate whose
`validateCredentials` round trip succeeds is the one copied to `particleData`
and persisted (`some`); a failed candidate is discarded and the flow loops
back to the access-token prompt; `none` when the input sequence is exhausted
without a validated candidate (the loop is still prompting). -/
def serialConfigureRun : List (Credential × PingEnv) → Option Credential
  | [] => none
  | (c, env) :: rest =>
    if validateCredentials env.wifiConnected env.allocOk env.httpCode env.body then some c
    else serialConfigureRun rest

/-! ## Connection hook (Particle.cpp lines 96-110) -/

/-- What `onConnection` does with an event. -/
inductive ConnAction where
  | configure : ConnAction
  | display : ConnAction
  | idle : ConnAction
  deriving DecidableEq

/-- `onConnection(connectionCount)` (lines 96-110): only the first connection
event (`connectionCount == 1`) triggers anything; it runs `serialConfigure`
when unconfigured and `displayConfig` otherwise. -/
def onConnection (connectionCount : Int) (configured : Bool) : ConnAction :=
  if connectionCount = 1 then
    if !configured then ConnAction.configure else ConnAction.display
  else ConnAction.idle

/-! ## Async front ends (Particle.cpp lines 577-659 and 663-735) -/

/-- The environment of one async front-end call: the configuration and WiFi
state at entry, the configuration state after a possible `serialConfigure`
run, the throttle cache and current `millis()`, whether `xTaskCreate`
succeeds, and the network outcomes seen by the spawned task. -/
structure AsyncEnv where
  configured : Bool
  wifiConnected : Bool
  configuredAfterSetup : Bool
  throttleSt : ThrottleState
  now : Nat
  spawnOk : Bool
  outcomes : Nat → HttpOutcome

/-- The observable result of an async front-end call: the events of the whole
request (synchronous continuation calls and, when a task was spawned, the
task's events), whether the call was rejected by the length validation,
whether `checkThrottle` was consulted, whether a task was spawned, and the
throttle cache afterwards. -/
structure FrontResult where
  events : List TaskEvent
  rejectedForLength : Bool
  throttleConsulted : Bool
  spawned : Bool
  throttleAfter : ThrottleState

/-- `if(callback) callback(...)`: the continuation event when non-null. -/
def cbIf (hasCallback : Bool) (ev : TaskEvent) : List TaskEvent :=
  if hasCallback then [ev] else []

/-- `callFunctionAsync` (lines 577-659): length validation of the name
(> 64 bytes) and the argument (> 1024 bytes); configuration check with a
possible synchronous `serialConfigure` run (requiring WiFi); throttle gate;
task spawn; on spawn failure the front end itself frees the request and
invokes the continuation.  Each rejection path invokes the continuation (when
non-null) synchronously with `(-1, false)`. -/
def callFunctionAsyncRun (env : AsyncEnv) (functionName functionArgument : CStr)
    (hasCallback : Bool) : FrontResult :=
  if functionName.length > 64 then
    ⟨cbIf hasCallback (TaskEvent.cbF (-1) false), true, false, false, env.throttleSt⟩
  else if functionArgument.length > 1024 then
    ⟨cbIf hasCallback (TaskEvent.cbF (-1) false), true, false, false, env.throttleSt⟩
  else if !env.configured && !env.wifiConnected then
    ⟨cbIf hasCallback (TaskEvent.cbF (-1) false), false, false, false, env.throttleSt⟩
  else if !env.configured && !env.configuredAfterSetup then
    ⟨cbIf hasCallback (TaskEvent.cbF (-1) false), false, false, false, env.throttleSt⟩
  else
    let t := checkThrottle env.throttleSt (("function").toList) functionName env.now
    if !t.1 then
      ⟨cbIf hasCallback (TaskEvent.cbF (-1) false), false, true, false, t.2⟩
    else if !env.spawnOk then
      ⟨cbIf hasCallback (TaskEvent.cbF (-1) false), false, true, false, t.2⟩
    else
      let task := callFunctionTaskRun env.outcomes hasCallback
      ⟨task.2.2, false, true, true, t.2⟩

/-- `getVariableAsync` (lines 663-735): same shape as `callFunctionAsync` with
only the variable-name length validation and a single-attempt task; rejection
paths invoke the continuation with `("", false)`. -/
def getVariableAsyncRun (env : AsyncEnv) (variableName : CStr)
    (hasCallback : Bool) : FrontResult :=
  if variableName.length > 64 then
    ⟨cbIf hasCallback (TaskEvent.cbV [] false), true, false, false, env.throttleSt⟩
  else if !env.configured && !env.wifiConnected then
    ⟨cbIf hasCallback (TaskEvent.cbV [] false), false, false, false, env.throttleSt⟩
  else if !env.configured && !env.configuredAfterSetup then
    ⟨cbIf hasCallback (TaskEvent.cbV [] false), false, false, false, env.throttleSt⟩
  else
    let t := checkThrottle env.throttleSt (("variable").toList) variableName env.now
    if !t.1 then
      ⟨cbIf hasCallback (TaskEvent.cbV [] false), false, true, false, t.2⟩
    else if !env.spawnOk then
      ⟨cbIf hasCallback (TaskEvent.cbV [] false), false, true, false, t.2⟩
    else
      let task := getVariableTaskRun (env.outcomes 0) hasCallback
      ⟨task.2.2, false, true, true, t.2⟩

/-! ## Helper lemmas about the scanning primitives -/

theorem countLeading_eq_zero (p : Char → Bool) (c : Char) (rest : CStr) (h : p c = false) :
    countLeading p (c :: rest) = 0 := by
  simp [countLeading, h]

theorem countLeading_sat (p : Char → Bool) (ws : CStr) (c : Char) (rest : CStr)
    (hws : ∀ x ∈ ws, p x = true) (hc : p c = false) :
    countLeading p (ws ++ c :: rest) = ws.length := by
  induction ws with
  | nil => simp [countLeading, hc]
  | cons w ws ih =>
    have hw : p w = true := hws w (by simp)
    simp [countLeading, hw, ih (fun x hx => hws x (by simp [hx]))]

theorem scanWhileGo_eq (p : Char → Bool) (s : CStr) :
    ∀ fuel i, s.length ≤ i + fuel → scanWhileGo p s fuel i = i + countLeading p (s.drop i) := by
  intro fuel
  induction fuel with
  | zero =>
    intro i hi
    have hd : s.drop i = [] := List.drop_eq_nil_of_le (by omega)
    simp [scanWhileGo, hd, countLeading]
  | succ fuel ih =>
    intro i hi
    by_cases hlt : i < s.length
    · have hdrop : s.drop i = s[i] :: s.drop (i + 1) := List.drop_eq_getElem_cons hlt
      have hchar : charAt s i = s[i] := by
        simp [charAt, List.getD, List.getElem?_eq_getElem hlt]
      by_cases hp : p (charAt s i) = true
      · have h1 : scanWhileGo p s (fuel + 1) i = scanWhileGo p s fuel (i + 1) := by
          simp [scanWhileGo, hlt, hp]
        rw [h1, ih (i + 1) (by omega), hdrop, countLeading]
        rw [hchar] at hp
        simp [hp]
        omega
      · have h1 : scanWhileGo p s (fuel + 1) i = i := by
          simp [scanWhileGo, hp]
        rw [h1, hdrop, countLeading]
        rw [hchar] at hp
        simp [hp]
    · have h1 : scanWhileGo p s (fuel + 1) i = i := by
        simp [scanWhileGo, hlt]
      have hd : s.drop i = [] := List.drop_eq_nil_of_le (by omega)
      simp [h1, hd, countLeading]

theorem scanWhile_eq (p : Char → Bool) (s : CStr) (i : Nat) :
    scanWhile p s i = i + countLeading p (s.drop i) :=
  scanWhileGo_eq p s (s.length - i) i (by omega)

theorem substring_self (s : CStr) (a : Nat) : substring s a a = [] := by
  apply List.drop_eq_nil_of_le
  simp [List.length_take]

theorem indexOfStrGo_hit (s pat : CStr) (fuel i : Nat)
    (h : List.isPrefixOf pat (s.drop i) = true) :
    indexOfStrGo s pat (fuel + 1) i = (i : Int) := by
  simp [indexOfStrGo, h]

theorem indexOfStrGo_miss (s pat : CStr) (fuel i : Nat)
    (h : List.isPrefixOf pat (s.drop i) = false) :
    indexOfStrGo s pat (fuel + 1) i = indexOfStrGo s pat fuel (i + 1) := by
  simp [indexOfStrGo, h]

theorem indexOfStrGo_none (s pat : CStr)
    (h : ∀ i, List.isPrefixOf pat (s.drop i) = false) :
    ∀ fuel i, indexOfStrGo s pat fuel i = -1 := by
  intro fuel
  induction fuel with
  | zero => intro i; simp [indexOfStrGo]
  | succ fuel ih => intro i; simp [indexOfStrGo, h i, ih]

/-- A nonempty pattern absent from every in-range start position is absent
from every start position (out-of-range drops are empty). -/
theorem isPrefixOf_false_of_ball (s pat : CStr) (c0 : Char) (p0 : CStr) (hpat : pat = c0 :: p0)
    (h : ∀ i, i ≤ s.length → List.isPrefixOf pat (s.drop i) = false) :
    ∀ i, List.isPrefixOf pat (s.drop i) = false := by
  intro i
  by_cases hi : i ≤ s.length
  · exact h i hi
  · have hd : s.drop i = [] := List.drop_eq_nil_of_le (by omega)
    simp [hd, hpat, List.isPrefixOf]

/-! ## Helper lemmas about the throttle cache -/

theorem elapsedMs_eq (now lastCall : Nat) (h1 : lastCall ≤ now) (h2 : now - lastCall < 2 ^ 32) :
    elapsedMs now lastCall = now - lastCall := by
  unfold elapsedMs
  have h3 : (now : Int) - (lastCall : Int) = ((now - lastCall : Nat) : Int) := by omega
  rw [h3, Int.emod_eq_of_lt (by positivity) (by exact_mod_cast h2)]
  simp

theorem throttleScan_found (now : Nat) (key : CStr) (post : List ThrottleEntry)
    (e : ThrottleEntry) (he : e.endpoint = key) :
    ∀ pre : List ThrottleEntry, (∀ x ∈ pre, x.endpoint ≠ key) →
      throttleScan now key (pre ++ e :: post)
        = if elapsedMs now e.lastCall < PARTICLE_THROTTLE_SECONDS * 1000 then
            some (false, pre ++ e :: post)
          else some (true, pre ++ ⟨e.endpoint, now⟩ :: post) := by
  intro pre
  induction pre with
  | nil =>
    intro _
    by_cases hel : elapsedMs now e.lastCall < PARTICLE_THROTTLE_SECONDS * 1000 <;>
      simp [throttleScan, he, hel]
  | cons x pre ih =>
    intro hpre
    have hx : x.endpoint ≠ key := hpre x (by simp)
    have ih' := ih (fun y hy => hpre y (by simp [hy]))
    by_cases hel : elapsedMs now e.lastCall < PARTICLE_THROTTLE_SECONDS * 1000
    · rw [if_pos hel] at ih'
      simp [throttleScan, hx, ih', if_pos hel]
    · rw [if_neg hel] at ih'
      simp [throttleScan, hx, ih', if_neg hel]

theorem throttleScan_not_found (now : Nat) (key : CStr) :
    ∀ cache : List ThrottleEntry, (∀ x ∈ cache, x.endpoint ≠ key) →
      throttleScan now key cache = none := by
  intro cache
  induction cache with
  | nil => intro _; rfl
  | cons e rest ih =>
    intro h
    have he : e.endpoint ≠ key := h e (by simp)
    simp [throttleScan, he, ih (fun x hx => h x (by simp [hx]))]

theorem throttleScan_none_not_mem (now : Nat) (key : CStr) :
    ∀ cache : List ThrottleEntry, throttleScan now key cache = none →
      ∀ x ∈ cache, x.endpoint ≠ key := by
  intro cache
  induction cache with
  | nil => intro _ x hx; simp at hx
  | cons e rest ih =>
    intro h x hx
    by_cases he : e.endpoint = key
    · exfalso
      by_cases hel : elapsedMs now e.lastCall < PARTICLE_THROTTLE_SECONDS * 1000 <;>
        simp [throttleScan, he, hel] at h
    · rcases List.mem_cons.mp hx with hx | hx
      · rw [hx]; exact he
      · refine ih ?_ x hx
        cases hr : throttleScan now key rest with
        | some p => simp [throttleScan, he, hr] at h
        | none => rfl

theorem throttleScan_some_keys (now : Nat) (key : CStr) :
    ∀ (cache : List ThrottleEntry) (b : Bool) (cache' : List ThrottleEntry),
      throttleScan now key cache = some (b, cache') →
      cache'.map ThrottleEntry.endpoint = cache.map ThrottleEntry.endpoint := by
  intro cache
  induction cache with
  | nil => intro b cache' h; simp [throttleScan] at h
  | cons e rest ih =>
    intro b cache' h
    by_cases he : e.endpoint = key
    · by_cases hel : elapsedMs now e.lastCall < PARTICLE_THROTTLE_SECONDS * 1000 <;>
        · simp [throttleScan, he, hel] at h
          obtain ⟨hb, hc⟩ := h
          subst hc
          simp [he]
    · cases hr : throttleScan now key rest with
      | some p =>
        obtain ⟨b', rest'⟩ := p
        simp [throttleScan, he, hr] at h
        obtain ⟨hb, hc⟩ := h
        subst hc
        simp [ih b' rest' hr]
      | none => simp [throttleScan, he, hr] at h

/-- The window rule at a cached key, packaged for reuse: a call strictly
inside the window is denied and leaves the cache untouched; a call at or past
the window is admitted and sets the entry's `lastCall` to `now`. -/
theorem checkThrottle_found (pre post : List ThrottleEntry) (e : ThrottleEntry)
    (endpointType endpointName : CStr) (now : Nat)
    (hpre : ∀ x ∈ pre, x.endpoint ≠ throttleKey endpointType endpointName)
    (he : e.endpoint = throttleKey endpointType endpointName)
    (hmono : e.lastCall ≤ now) (hwrap : now - e.lastCall < 2 ^ 32) :
    (now - e.lastCall < PARTICLE_THROTTLE_SECONDS * 1000 →
      checkThrottle ⟨pre ++ e :: post⟩ endpointType endpointName now
        = (false, ⟨pre ++ e :: post⟩)) ∧
    (PARTICLE_THROTTLE_SECONDS * 1000 ≤ now - e.lastCall →
      checkThrottle ⟨pre ++ e :: post⟩ endpointType endpointName now
        = (true, ⟨pre ++ ⟨e.endpoint, now⟩ :: post⟩)) := by
  have hscan := throttleScan_found now (throttleKey endpointType endpointName) post e he pre hpre
  rw [elapsedMs_eq now e.lastCall hmono hwrap] at hscan
  constructor
  · intro h
    rw [if_pos h] at hscan
    simp [checkThrottle, PARTICLE_THROTTLE_ENABLED, hscan]
  · intro h
    rw [if_neg (by omega)] at hscan
    simp [checkThrottle, PARTICLE_THROTTLE_ENABLED, hscan]

/-- The invariant of reachable throttle caches: keys are pairwise distinct and
the size bound holds. -/
theorem reachable_throttle_invariant (st : ThrottleState) (h : ReachableThrottle st) :
    (st.cache.map ThrottleEntry.endpoint).Nodup ∧
    st.cache.length ≤ PARTICLE_THROTTLE_CACHE_SIZE := by
  induction h with
  | init => simp [PARTICLE_THROTTLE_CACHE_SIZE]
  | step st t n now hst ih =>
    obtain ⟨hnodup, hlen⟩ := ih
    cases hscan : throttleScan now (throttleKey t n) st.cache with
    | some p =>
      obtain ⟨b, cache'⟩ := p
      have hkeys := throttleScan_some_keys now (throttleKey t n) st.cache b cache' hscan
      have hlen' : cache'.length = st.cache.length := by
        have := congrArg List.length hkeys
        simpa using this
      simp only [checkThrottle, PARTICLE_THROTTLE_ENABLED, Bool.not_true, Bool.false_eq_true,
        if_false, hscan]
      constructor
      · rw [hkeys]; exact hnodup
      · rw [hlen']; exact hlen
    | none =>
      by_cases hsp : st.cache.length < PARTICLE_THROTTLE_CACHE_SIZE
      · have hnot := throttleScan_none_not_mem now (throttleKey t n) st.cache hscan
        have hmem : throttleKey t n ∉ st.cache.map ThrottleEntry.endpoint := by
          intro hmem
          obtain ⟨x, hx, hx'⟩ := List.mem_map.mp hmem
          exact hnot x hx hx'
        simp only [checkThrottle, PARTICLE_THROTTLE_ENABLED, Bool.not_true, Bool.false_eq_true,
          if_false, hscan, if_pos hsp]
        constructor
        · simp [List.nodup_append, hnodup, hmem]
        · simp; omega
      · simp only [checkThrottle, PARTICLE_THROTTLE_ENABLED, Bool.not_true, Bool.false_eq_true,
          if_false, hscan, if_neg hsp]
        exact ⟨hnodup, hlen⟩

/-- The events of the retry loop are exactly one `net` per attempt made. -/
theorem callFunctionLoop_events (outcomes : Nat → HttpOutcome) :
    ∀ fuel attempt rv, ∃ k,
      (callFunctionLoop outcomes fuel attempt rv).2.2 = List.replicate k TaskEvent.net := by
  intro fuel
  induction fuel with
  | zero => intro attempt rv; exact ⟨0, rfl⟩
  | succ fuel ih =>
    intro attempt rv
    cases houtcome : outcomes attempt with
    | allocFail => exact ⟨0, by simp [callFunctionLoop, houtcome]⟩
    | resp code body =>
      by_cases hcode : code = 200
      · cases hex : extractReturnValue body with
        | some v =>
          exact ⟨1, by simp [callFunctionLoop, houtcome, hcode, hex, List.replicate]⟩
        | none =>
          obtain ⟨k, hk⟩ := ih (attempt + 1) rv
          exact ⟨k + 1, by simp [callFunctionLoop, houtcome, hcode, hex, hk, List.replicate_succ]⟩
      · obtain ⟨k, hk⟩ := ih (attempt + 1) rv
        exact ⟨k + 1, by simp [callFunctionLoop, houtcome, hcode, hk, List.replicate_succ]⟩

/-! ## Claim theorems -/

/-- Claim C1 (code bug witness): the retry loop of `callFunctionTaskImpl`
makes a further attempt after a failure that is not a read-timeout.  With an
outcome sequence whose first attempt fails with HTTP 404 (neither a
read-timeout nor a success) and whose second attempt returns 200 with
`return_value` 42, the loop performs a second HTTP round trip and reports
overall success 42 — whereas under the claim (and the source's own comment
`Retry only on read timeouts`) the loop would have ended with overall failure
after the single 404 attempt.  The loop condition
`attempt <= PARTICLE_FUNCTION_RETRY_COUNT && !success` does not consult the
failure kind; the `httpCode == HTTPC_ERROR_READ_TIMEOUT` test at line 453 only
gates the inter-attempt delay. -/
theorem c1_retry_after_non_timeout_failure :
    callFunctionTaskRun
      (fun n => if n = 0 then HttpOutcome.resp 404 [] else
        HttpOutcome.resp 200 (("\x7b\"return_value\":42\x7d").toList)) true
      = (42, true, [TaskEvent.net, TaskEvent.net, TaskEvent.cbF 42 true]) := by
  decide

/-- Claim C6: the variable-read extraction on an HTTP 200 body maps
`\x7b"result":"abc"\x7d` to `("abc", true)`, `\x7b"result":42\x7d` to
`("42", true)`, and any body in which the key `"result":` does not occur to
`("", false)` — a total function, never a crash. -/
theorem c6_variable_read_extraction :
    extractVariableResult (("\x7b\"result\":\"abc\"\x7d").toList) = (("abc").toList, true) ∧
    extractVariableResult (("\x7b\"result\":42\x7d").toList) = (("42").toList, true) ∧
    ∀ body : CStr, (∀ i, i ≤ body.length → List.isPrefixOf RESULT_KEY (body.drop i) = false) →
      extractVariableResult body = ([], false) := by
  refine ⟨by decide, by decide, ?_⟩
  intro body h
  have hall : ∀ i, List.isPrefixOf RESULT_KEY (body.drop i) = false :=
    isPrefixOf_false_of_ball body RESULT_KEY '"' (("result\":").toList) (by decide) h
  have hidx : indexOfStr body RESULT_KEY 0 = -1 :=
    indexOfStrGo_none body RESULT_KEY hall _ _
  simp [extractVariableResult, hidx]

/-- Witness for C6 at the concrete body `status:ok`, which does not contain
the key `"result":`. -/
theorem c6_witness :
    (∀ i, i ≤ (("status:ok").toList : CStr).length →
        List.isPrefixOf RESULT_KEY ((("status:ok").toList : CStr).drop i) = false) ∧
    extractVariableResult (("status:ok").toList) = ([], false) :=
  ⟨by decide, c6_variable_read_extraction.2.2 (("status:ok").toList) (by decide)⟩

/-- Claim C9: a present-but-empty string value `\x7b"result":""\x7d` yields
`("", false)` — the string branch requires `endPos > startPos`, so it is
indistinguishable from an absent field (same outcome as a body without the
key). -/
theorem c9_empty_string_result :
    extractVariableResult (("\x7b\"result\":\"\"\x7d").toList) = ([], false) ∧
    extractVariableResult (("\x7b\"result\":\"\"\x7d").toList)
      = extractVariableResult (("\x7b\"other\":1\x7d").toList) := by
  exact ⟨by decide, by decide⟩

/-- Claim C8 (counterexample): `onConnection` does nothing on a reconnection
event — at `connectionCount = 2` with an unconfigured credential store it
neither runs the configurator nor displays the configuration, refuting the
claim that every connection event triggers one of the two. -/
theorem c8_counterexample_reconnection :
    onConnection 2 false = ConnAction.idle ∧ onConnection 2 false ≠ ConnAction.configure := by
  decide

/-- Claim C8 (amended): only the first connection event
(`connectionCount == 1`) acts — running the interactive configurator when the
credential store is unconfigured and displaying the configuration otherwise;
every later connection event does nothing. -/
theorem c8_first_connection_only (connectionCount : Int) (configured : Bool) :
    (connectionCount = 1 → onConnection connectionCount configured
      = (if configured then ConnAction.display else ConnAction.configure)) ∧
    (connectionCount ≠ 1 → onConnection connectionCount configured = ConnAction.idle) := by
  constructor
  · intro h
    subst h
    cases configured <;> simp [onConnection]
  · intro h
    simp [onConnection, h]

/-- Witness for the amended C8 at the first connection event (unconfigured)
and at a later event. -/
theorem c8_witness :
    onConnection 1 false = ConnAction.configure ∧ onConnection 3 true = ConnAction.idle :=
  ⟨by simpa using (c8_first_connection_only 1 false).1 rfl,
   by simpa using (c8_first_connection_only 3 true).2 (by decide)⟩

/-- Claim C7: a validation round trip returning HTTP 200 is accepted
regardless of the response body (the online/offline parse is informational
only); any non-200 status or transport failure yields `false`; in the
`serialConfigure` loop a failed candidate is discarded (the loop re-prompts)
and the first validated candidate is the one persisted. -/
theorem c7_ping_validation :
    (∀ body : CStr, validateCredentials true true 200 body = true) ∧
    (∀ (wifi alloc : Bool) (code : Int) (body : CStr), code ≠ 200 →
        validateCredentials wifi alloc code body = false) ∧
    (∀ (c : Credential) (env : PingEnv) (rest : List (Credential × PingEnv)),
        validateCredentials env.wifiConnected env.allocOk env.httpCode env.body = false →
        serialConfigureRun ((c, env) :: rest) = serialConfigureRun rest) ∧
    (∀ (c : Credential) (env : PingEnv) (rest : List (Credential × PingEnv)),
        validateCredentials env.wifiConnected env.allocOk env.httpCode env.body = true →
        serialConfigureRun ((c, env) :: rest) = some c) := by
  refine ⟨?_, ?_, ?_, ?_⟩
  · intro body
    simp [validateCredentials]
  · intro wifi alloc code body h
    cases wifi <;> cases alloc <;> simp [validateCredentials, h]
  · intro c env rest h
    simp [serialConfigureRun, h]
  · intro c env rest h
    simp [serialConfigureRun, h]

/-- Witness for C7: a 404 round trip is rejected, and the configuration loop
skips the rejected candidate and persists the first one whose round trip
returns 200. -/
theorem c7_witness :
    validateCredentials true true 404 [] = false ∧
    serialConfigureRun
        [(⟨[], []⟩, ⟨true, true, 404, []⟩), (⟨['a'], ['b']⟩, ⟨true, true, 200, []⟩)]
      = some ⟨['a'], ['b']⟩ := by
  constructor
  · exact c7_ping_validation.2.1 true true 404 [] (by decide)
  · rw [c7_ping_validation.2.2.1 ⟨[], []⟩ ⟨true, true, 404, []⟩ _ (by decide)]
    exact c7_ping_validation.2.2.2 ⟨['a'], ['b']⟩ ⟨true, true, 200, []⟩ [] (by decide)

/-- Claim C3: with throttling enabled, a `checkThrottle` call for a cached
endpoint key made strictly less than the window (`PARTICLE_THROTTLE_SECONDS *
1000` ms) after the last admitted call is denied and leaves the whole cache —
in particular the entry's `lastCall` — unchanged, so a denied attempt does not
reset or extend the cooldown; a call made at or after the window is admitted
and sets the entry's `lastCall` to `now`.  Applied along any call sequence,
this is exactly the invariant that `lastCall` is the time of the last
admitted call.  The timestamp hypotheses pin down the 32-bit wraparound
subtraction `now - lastCall`. -/
theorem c3_throttle_window_rule (pre post : List ThrottleEntry) (e : ThrottleEntry)
    (endpointType endpointName : CStr) (now : Nat)
    (hpre : ∀ x ∈ pre, x.endpoint ≠ throttleKey endpointType endpointName)
    (he : e.endpoint = throttleKey endpointType endpointName)
    (hmono : e.lastCall ≤ now) (hwrap : now - e.lastCall < 2 ^ 32) :
    (now - e.lastCall < PARTICLE_THROTTLE_SECONDS * 1000 →
      checkThrottle ⟨pre ++ e :: post⟩ endpointType endpointName now
        = (false, ⟨pre ++ e :: post⟩)) ∧
    (PARTICLE_THROTTLE_SECONDS * 1000 ≤ now - e.lastCall →
      checkThrottle ⟨pre ++ e :: post⟩ endpointType endpointName now
        = (true, ⟨pre ++ ⟨e.endpoint, now⟩ :: post⟩)) :=
  checkThrottle_found pre post e endpointType endpointName now hpre he hmono hwrap

/-- Witness for C3 on a one-entry cache: a call 5 seconds after the admitted
call is denied without mutation; a call exactly at the 10-second window is
admitted and updates `lastCall`. -/
theorem c3_witness :
    checkThrottle ⟨[⟨(("function:f").toList), 0⟩]⟩ (("function").toList) (("f").toList) 5000
      = (false, ⟨[⟨(("function:f").toList), 0⟩]⟩) ∧
    checkThrottle ⟨[⟨(("function:f").toList), 0⟩]⟩ (("function").toList) (("f").toList) 10000
      = (true, ⟨[⟨(("function:f").toList), 10000⟩]⟩) := by
  constructor
  · have h := (c3_throttle_window_rule [] [] ⟨(("function:f").toList), 0⟩
      (("function").toList) (("f").toList) 5000 (by simp) (by decide)
      (by decide) (by decide)).1 (by decide)
    simpa using h
  · have h := (c3_throttle_window_rule [] [] ⟨(("function:f").toList), 0⟩
      (("function").toList) (("f").toList) 10000 (by simp) (by decide)
      (by decide) (by decide)).2 (by decide)
    simpa using h

/-- Claim C4: (1) at every reachable state the throttle cache holds at most
one entry per distinct endpoint key (the key list is duplicate-free) and at
most `PARTICLE_THROTTLE_CACHE_SIZE` entries; (2) when the cache is at
capacity and the requested key is not cached, `checkThrottle` admits
fail-open, adding and evicting nothing; (3) keys already in a full cache
remain enforced under the normal window rule. -/
theorem c4_cache_invariant_fail_open :
    (∀ st : ThrottleState, ReachableThrottle st →
        (st.cache.map ThrottleEntry.endpoint).Nodup ∧
        st.cache.length ≤ PARTICLE_THROTTLE_CACHE_SIZE) ∧
    (∀ (st : ThrottleState) (endpointType endpointName : CStr) (now : Nat),
        PARTICLE_THROTTLE_CACHE_SIZE ≤ st.cache.length →
        (∀ x ∈ st.cache, x.endpoint ≠ throttleKey endpointType endpointName) →
        checkThrottle st endpointType endpointName now = (true, st)) ∧
    (∀ (pre post : List ThrottleEntry) (e : ThrottleEntry)
        (endpointType endpointName : CStr) (now : Nat),
        PARTICLE_THROTTLE_CACHE_SIZE ≤ (pre ++ e :: post).length →
        (∀ x ∈ pre, x.endpoint ≠ throttleKey endpointType endpointName) →
        e.endpoint = throttleKey endpointType endpointName →
        e.lastCall ≤ now → now - e.lastCall < 2 ^ 32 →
        (now - e.lastCall < PARTICLE_THROTTLE_SECONDS * 1000 →
          checkThrottle ⟨pre ++ e :: post⟩ endpointType endpointName now
            = (false, ⟨pre ++ e :: post⟩)) ∧
        (PARTICLE_THROTTLE_SECONDS * 1000 ≤ now - e.lastCall →
          checkThrottle ⟨pre ++ e :: post⟩ endpointType endpointName now
            = (true, ⟨pre ++ ⟨e.endpoint, now⟩ :: post⟩))) := by
  refine ⟨reachable_throttle_invariant, ?_, ?_⟩
  · intro st endpointType endpointName now hfull hnot
    have hscan := throttleScan_not_found now (throttleKey endpointType endpointName) st.cache hnot
    simp [checkThrottle, PARTICLE_THROTTLE_ENABLED, hscan, if_neg (by omega : ¬ st.cache.length < PARTICLE_THROTTLE_CACHE_SIZE)]
  · intro pre post e endpointType endpointName now _ hpre he hmono hwrap
    exact checkThrottle_found pre post e endpointType endpointName now hpre he hmono hwrap

/-- Witness for C4: the empty cache is reachable and duplicate-free; a full
cache of ten entries admits an uncached key fail-open without mutation; a
cached key in a full cache is still denied inside the window. -/
theorem c4_witness :
    ((ThrottleState.mk []).cache.map ThrottleEntry.endpoint).Nodup ∧
    checkThrottle ⟨List.replicate 10 ⟨['x'], 0⟩⟩ (("function").toList) (("g").toList) 999
      = (true, ⟨List.replicate 10 ⟨['x'], 0⟩⟩) ∧
    checkThrottle ⟨List.replicate 9 ⟨['x'], 0⟩ ++ [⟨(("function:f").toList), 0⟩]⟩
        (("function").toList) (("f").toList) 999
      = (false, ⟨List.replicate 9 ⟨['x'], 0⟩ ++ [⟨(("function:f").toList), 0⟩]⟩) := by
  refine ⟨(c4_cache_invariant_fail_open.1 ⟨[]⟩ ReachableThrottle.init).1, ?_, ?_⟩
  · exact c4_cache_invariant_fail_open.2.1 ⟨List.replicate 10 ⟨['x'], 0⟩⟩
      (("function").toList) (("g").toList) 999 (by decide) (by decide)
  · have h := (c4_cache_invariant_fail_open.2.2 (List.replicate 9 ⟨['x'], 0⟩) []
      ⟨(("function:f").toList), 0⟩ (("function").toList) (("f").toList) 999
      (by decide) (by decide) (by decide) (by decide) (by decide)).1 (by decide)
    simpa using h

/-- Claim C2: for every environment (covering input-validation failure,
connectivity/configuration failure, throttle denial, task-spawn failure,
transport-allocation failure inside the background unit, retry exhaustion and
success) a request with a non-null continuation produces a trace consisting of
some number of HTTP round trips followed by exactly one continuation
invocation — the continuation fires exactly once, after all network activity
for the request has concluded — for both `callFunctionAsync` and
`getVariableAsync`. -/
theorem c2_continuation_exactly_once (env : AsyncEnv)
    (functionName functionArgument variableName : CStr) :
    (∃ k rv ok, (callFunctionAsyncRun env functionName functionArgument true).events
      = List.replicate k TaskEvent.net ++ [TaskEvent.cbF rv ok]) ∧
    (∃ k res ok, (getVariableAsyncRun env variableName true).events
      = List.replicate k TaskEvent.net ++ [TaskEvent.cbV res ok]) := by
  constructor
  · unfold callFunctionAsyncRun
    by_cases h1 : functionName.length > 64
    · rw [if_pos h1]
      exact ⟨0, -1, false, by simp [cbIf]⟩
    rw [if_neg h1]
    by_cases h2 : functionArgument.length > 1024
    · rw [if_pos h2]
      exact ⟨0, -1, false, by simp [cbIf]⟩
    rw [if_neg h2]
    by_cases h3 : (!env.configured && !env.wifiConnected) = true
    · rw [if_pos h3]
      exact ⟨0, -1, false, by simp [cbIf]⟩
    rw [if_neg h3]
    by_cases h4 : (!env.configured && !env.configuredAfterSetup) = true
    · rw [if_pos h4]
      exact ⟨0, -1, false, by simp [cbIf]⟩
    rw [if_neg h4]
    rcases hth : checkThrottle env.throttleSt (("function").toList) functionName env.now
      with ⟨allowed, st'⟩
    cases allowed
    · exact ⟨0, -1, false, by simp [hth, cbIf]⟩
    · by_cases h5 : env.spawnOk
      · obtain ⟨k, hk⟩ :=
          callFunctionLoop_events env.outcomes (PARTICLE_FUNCTION_RETRY_COUNT + 1) 0 (-1)
        exact ⟨k,
          (callFunctionLoop env.outcomes (PARTICLE_FUNCTION_RETRY_COUNT + 1) 0 (-1)).1,
          (callFunctionLoop env.outcomes (PARTICLE_FUNCTION_RETRY_COUNT + 1) 0 (-1)).2.1,
          by simp [hth, h5, callFunctionTaskRun, hk]⟩
      · exact ⟨0, -1, false, by simp [hth, h5, cbIf]⟩
  · unfold getVariableAsyncRun
    by_cases h1 : variableName.length > 64
    · rw [if_pos h1]
      exact ⟨0, [], false, by simp [cbIf]⟩
    rw [if_neg h1]
    by_cases h3 : (!env.configured && !env.wifiConnected) = true
    · rw [if_pos h3]
      exact ⟨0, [], false, by simp [cbIf]⟩
    rw [if_neg h3]
    by_cases h4 : (!env.configured && !env.configuredAfterSetup) = true
    · rw [if_pos h4]
      exact ⟨0, [], false, by simp [cbIf]⟩
    rw [if_neg h4]
    rcases hth : checkThrottle env.throttleSt (("variable").toList) variableName env.now
      with ⟨allowed, st'⟩
    cases allowed
    · exact ⟨0, [], false, by simp [hth, cbIf]⟩
    · by_cases h5 : env.spawnOk
      · cases houtcome : env.outcomes 0 with
        | allocFail =>
          exact ⟨0, [], false, by simp [hth, h5, getVariableTaskRun, houtcome]⟩
        | resp code body =>
          by_cases hcode : code = 200
          · exact ⟨1, (extractVariableResult body).1, (extractVariableResult body).2,
              by simp [hth, h5, getVariableTaskRun, houtcome, hcode, List.replicate]⟩
          · exact ⟨1, [], false,
              by simp [hth, h5, getVariableTaskRun, houtcome, hcode, List.replicate]⟩
      · exact ⟨0, [], false, by simp [hth, h5, cbIf]⟩

/-- Claim C5: an over-long function name (> 64 bytes) or argument
(> 1024 bytes) to `callFunctionAsync`, and an over-long variable name to
`getVariableAsync`, cause the continuation to be invoked synchronously with
failure (`-1` / empty text) with no background work spawned, no HTTP round
trip, and the throttle cache neither consulted nor mutated; inputs at exactly
the limit are not rejected by the length validation. -/
theorem c5_length_validation :
    (∀ (env : AsyncEnv) (fn arg : CStr), fn.length > 64 →
        callFunctionAsyncRun env fn arg true
          = ⟨[TaskEvent.cbF (-1) false], true, false, false, env.throttleSt⟩) ∧
    (∀ (env : AsyncEnv) (fn arg : CStr), arg.length > 1024 →
        callFunctionAsyncRun env fn arg true
          = ⟨[TaskEvent.cbF (-1) false], true, false, false, env.throttleSt⟩) ∧
    (∀ (env : AsyncEnv) (vn : CStr), vn.length > 64 →
        getVariableAsyncRun env vn true
          = ⟨[TaskEvent.cbV [] false], true, false, false, env.throttleSt⟩) ∧
    (∀ (env : AsyncEnv) (fn arg : CStr), fn.length ≤ 64 → arg.length ≤ 1024 →
        (callFunctionAsyncRun env fn arg true).rejectedForLength = false) ∧
    (∀ (env : AsyncEnv) (vn : CStr), vn.length ≤ 64 →
        (getVariableAsyncRun env vn true).rejectedForLength = false) := by
  refine ⟨?_, ?_, ?_, ?_, ?_⟩
  · intro env fn arg h
    unfold callFunctionAsyncRun
    rw [if_pos h]
    simp [cbIf]
  · intro env fn arg h
    unfold callFunctionAsyncRun
    by_cases h1 : fn.length > 64
    · rw [if_pos h1]
      simp [cbIf]
    · rw [if_neg h1, if_pos h]
      simp [cbIf]
  · intro env vn h
    unfold getVariableAsyncRun
    rw [if_pos h]
    simp [cbIf]
  · intro env fn arg h1 h2
    unfold callFunctionAsyncRun
    rw [if_neg (by omega), if_neg (by omega)]
    rcases hth : checkThrottle env.throttleSt (("function").toList) fn env.now
      with ⟨allowed, st'⟩
    cases allowed <;> split_ifs <;> simp [hth]
  · intro env vn h
    unfold getVariableAsyncRun
    rw [if_neg (by omega)]
    rcases hth : checkThrottle env.throttleSt (("variable").toList) vn env.now
      with ⟨allowed, st'⟩
    cases allowed <;> split_ifs <;> simp [hth]

set_option maxRecDepth 8192 in
/-- Witness for C5 at a 65-byte name (rejected, continuation fired
synchronously, throttle untouched) and at the exact limits (not rejected). -/
theorem c5_witness :
    (List.replicate 65 'a' : CStr).length > 64 ∧
    callFunctionAsyncRun ⟨true, true, true, ⟨[]⟩, 0, true, fun _ => HttpOutcome.allocFail⟩
        (List.replicate 65 'a') [] true
      = ⟨[TaskEvent.cbF (-1) false], true, false, false, ⟨[]⟩⟩ ∧
    getVariableAsyncRun ⟨true, true, true, ⟨[]⟩, 0, true, fun _ => HttpOutcome.allocFail⟩
        (List.replicate 65 'a') true
      = ⟨[TaskEvent.cbV [] false], true, false, false, ⟨[]⟩⟩ ∧
    (callFunctionAsyncRun ⟨true, true, true, ⟨[]⟩, 0, true, fun _ => HttpOutcome.allocFail⟩
        (List.replicate 64 'a') (List.replicate 1024 'b') true).rejectedForLength = false :=
  ⟨by decide,
   c5_length_validation.1 ⟨true, true, true, ⟨[]⟩, 0, true, fun _ => HttpOutcome.allocFail⟩
     (List.replicate 65 'a') [] (by decide),
   c5_length_validation.2.2.1 ⟨true, true, true, ⟨[]⟩, 0, true, fun _ => HttpOutcome.allocFail⟩
     (List.replicate 65 'a') (by decide),
   c5_length_validation.2.2.2.1 ⟨true, true, true, ⟨[]⟩, 0, true, fun _ => HttpOutcome.allocFail⟩
     (List.replicate 64 'a') (List.replicate 1024 'b') (by decide) (by decide)⟩

/-- Claim C10: on an HTTP 200 body of the form
`\x7b"return_value":<spaces/tabs><c>...` where `c` is neither a digit nor `-`
(e.g. `\x7b"return_value":null\x7d`), the scanned token is empty, `toInt`
yields 0, and the attempt is recorded as a success: the task reports
`returnValue = 0` with `success = true` after exactly one HTTP round trip —
no retry, and no parse-failure classification. -/
theorem c10_nonnumeric_return_value (ws : CStr) (c : Char) (rest : CStr)
    (hws : ∀ x ∈ ws, x = ' ' ∨ x = '\t')
    (hdigit : c.isDigit = false) (hminus : c ≠ '-') (hspace : c ≠ ' ') (htab : c ≠ '\t') :
    callFunctionTaskRun
        (fun _ => HttpOutcome.resp 200 ('\x7b' :: RETURN_VALUE_KEY ++ ws ++ c :: rest)) true
      = (0, true, [TaskEvent.net, TaskEvent.cbF 0 true]) := by
  have hklen : RETURN_VALUE_KEY.length = 15 := by decide
  set body : CStr := '\x7b' :: RETURN_VALUE_KEY ++ ws ++ c :: rest with hbody
  have hkey : RETURN_VALUE_KEY = '"' :: (("return_value\":").toList) := by decide
  have hmiss0 : List.isPrefixOf RETURN_VALUE_KEY (body.drop 0) = false := by
    rw [List.drop_zero, hbody, hkey]
    simp [List.isPrefixOf, show ('"' == '\x7b') = false from rfl]
  have hdrop1 : body.drop 1 = RETURN_VALUE_KEY ++ (ws ++ c :: rest) := by
    rw [hbody]
    simp
  have hprefix1 : List.isPrefixOf RETURN_VALUE_KEY (body.drop 1) = true := by
    rw [hdrop1]
    simp
  have hlen : body.length + 1 - 0 = (ws.length + rest.length + 17) + 1 := by
    rw [hbody]
    simp [hklen]
    try omega
  have hidx : indexOfStr body RETURN_VALUE_KEY 0 = 1 := by
    rw [indexOfStr, hlen, indexOfStrGo_miss _ _ _ _ hmiss0,
      show ws.length + rest.length + 17 = (ws.length + rest.length + 16) + 1 from by omega]
    exact indexOfStrGo_hit _ _ _ 1 hprefix1
  have hdrop16 : body.drop 16 = ws ++ c :: rest := by
    have hassoc : body = ('\x7b' :: RETURN_VALUE_KEY) ++ (ws ++ c :: rest) := by
      rw [hbody]
      simp
    rw [hassoc, List.drop_left' (by simp [hklen])]
  have hwsT : ∀ x ∈ ws, isSpaceOrTab x = true := by
    intro x hx
    rcases hws x hx with h | h <;> simp [isSpaceOrTab, h]
  have hcT : isSpaceOrTab c = false := by
    simp [isSpaceOrTab, hspace, htab]
  have hskip : scanWhile isSpaceOrTab body 16 = 16 + ws.length := by
    rw [scanWhile_eq, hdrop16, countLeading_sat _ _ _ _ hwsT hcT]
  have hcN : isNumChar c = false := by
    simp [isNumChar, hdigit, hminus]
  have hdropW : body.drop (16 + ws.length) = c :: rest := by
    have hassoc : body = (('\x7b' :: RETURN_VALUE_KEY) ++ ws) ++ (c :: rest) := by
      rw [hbody]
      try simp
    rw [hassoc, List.drop_left' (by simp [hklen]; omega)]
  have hnum : scanWhile isNumChar body (16 + ws.length) = 16 + ws.length := by
    rw [scanWhile_eq, hdropW, countLeading_eq_zero _ _ _ hcN]
    omega
  have hextract : extractReturnValue body = some 0 := by
    simp only [extractReturnValue, hidx]
    norm_num
    rw [hskip, hnum, substring_self]
    rfl
  have hloop : callFunctionLoop (fun _ => HttpOutcome.resp 200 body)
      (PARTICLE_FUNCTION_RETRY_COUNT + 1) 0 (-1) = (0, true, [TaskEvent.net]) := by
    simp [callFunctionLoop, hextract]
  simp [callFunctionTaskRun, hloop]

/-- Witness for C10 at the concrete body `\x7b"return_value": null\x7d`. -/
theorem c10_witness :
    (∀ x ∈ ([' '] : CStr), x = ' ' ∨ x = '\t') ∧
    callFunctionTaskRun
        (fun _ => HttpOutcome.resp 200
          ('\x7b' :: RETURN_VALUE_KEY ++ [' '] ++ 'n' :: (("ull\x7d").toList))) true
      = (0, true, [TaskEvent.net, TaskEvent.cbF 0 true]) :=
  ⟨by decide,
   c10_nonnumeric_return_value [' '] 'n' (("ull\x7d").toList) (by decide) (by decide)
     (by decide) (by decide) (by decide)⟩

end Particle
